import Mathlib

/-
  Verification of the taipan compiler core against its specification.

  The analyzer (src/taipan/analyzer.py) and the emitter (src/taipan/emitter.py)
  are embedded shallowly below.  The AST node model, the symbol table and the
  error type live in modules that only the spec describes; their definitions
  are marked "Modelled from the spec".  Exceptions become Except / Option
  results, the mutable scope stack becomes an explicit list argument, and the
  mutable emitter state becomes an explicit record.
-/

set_option maxHeartbeats 1000000

namespace Taipan

/-- Modelled from the spec: a source position with 1-based line and column
(spec section 3, Location).  Only the line field is consulted by the
analyzer. -/
structure Position where
  line : Nat
  column : Nat
deriving DecidableEq

/-- Modelled from the spec: a Location is attached to tokens and AST nodes.
The analyzer reads location.start.line, so a Location carries a start and a
stop position (the Python attribute named end is renamed stop here).  The
file identifier is omitted: no claim consults it. -/
structure Location where
  start : Position
  stop : Position
deriving DecidableEq

/-- Modelled from the spec: per-scope mapping of declared names to their
declaration Locations (spec section 3, Symbol Table). -/
structure SymbolTable where
  symbols : List (String × Location)
deriving DecidableEq

/-- Modelled from the spec: looking up a declared name in a table yields its
declaration Location when present (table.lookup in analyzer.py line 30). -/
def SymbolTable.lookup (table : SymbolTable) (name : String) : Option Location :=
  (table.symbols.find? (fun entry => entry.1 == name)).map (fun entry => entry.2)

/-- Modelled from the spec: an operator token as the emitter reads it; the
field value is the literal spelling of the operator. -/
structure Operator where
  value : String
deriving DecidableEq

/-- Modelled from the spec: an Identifier node, a name plus its Location. -/
structure Identifier where
  name : String
  location : Location
deriving DecidableEq

/-- Modelled from the spec: the expression variants of the AST (spec section
3).  Number carries its decimal rendering as a String, standing for the text
the Python builtin str produces from the float payload: only that text is
observable in the claims.  String literals are not expression variants: the
exhaustive match of Analyzer._analyze_expression covers exactly these six. -/
inductive Expr where
  | number (value : String)
  | identifier (identifier : Identifier)
  | unary (operator : Operator) (value : Expr)
  | binary (left : Expr) (operator : Operator) (right : Expr)
  | comparison (left : Expr) (operator : Operator) (right : Expr)
  | parenthese (value : Expr)
deriving DecidableEq

/-- Modelled from the spec: the value of a Print statement is either a String
literal node or an expression (analyzer.py lines 60-67). -/
inductive PrintValue where
  | string (value : String)
  | expression (value : Expr)
deriving DecidableEq

mutual
/-- Modelled from the spec: the statement variants of the AST (spec section
3). -/
inductive Stmt where
  | blockStmt (block : Block)
  | ifStmt (condition : Expr) (block : Block)
  | whileStmt (condition : Expr) (block : Block)
  | input (identifier : Identifier)
  | print (value : PrintValue)
  | declaration (identifier : Identifier) (expression : Option Expr)
  | assignment (identifier : Identifier) (expression : Expr)
/-- Modelled from the spec: a Block is an ordered statement sequence plus its
own SymbolTable.  A dedicated statement-list type keeps Stmt, Block and
StmtList one mutual family, so every traversal below is structurally
recursive and kernel-reducible. -/
inductive Block where
  | mk (statements : StmtList) (symbolTable : SymbolTable)
/-- The ordered statement sequence of a Block. -/
inductive StmtList where
  | nil
  | cons (head : Stmt) (tail : StmtList)
end

/-- Modelled from the spec: Program wraps the single root Block. -/
structure Program where
  block : Block

/-- Modelled from the spec: the parse result handed to Analyzer.analyze,
which reads ast.root.block (analyzer.py line 46). -/
structure AST where
  root : Program

/-- Modelled from the spec: TaipanSemanticError carries the Location of the
offending use and a human-readable message. -/
structure SemanticError where
  location : Location
  message : String
deriving DecidableEq

/-- The single-quote character U+0027, used in the semantic error message. -/
def sq : String := (Char.ofNat 39).toString

/-- The message built at analyzer.py line 83, with sq the single quote:
Identifier <sq><name><sq> is not defined. -/
def undefinedMessage (name : String) : String :=
  "Identifier " ++ sq ++ name ++ sq ++ " is not defined"

/-- analyzer.py lines 28-36 (_is_defined): a use is defined when some table
on the stack maps its name to a symbol whose start line is strictly below
the use line.  Python iterates the deque innermost to outermost with an
early return on the first success; the boolean result does not depend on
that order, so List.any models the loop.  A table holding the name on a
non-earlier line is skipped (continue), not final. -/
def is_defined (symbol_tables : List SymbolTable) (identifier : Identifier) : Bool :=
  symbol_tables.any fun table =>
    match table.lookup identifier.name with
    | none => false
    | some symbol => decide (identifier.location.start.line > symbol.start.line)

/-- analyzer.py lines 76-93 (_analyze_expression): an Identifier that is not
defined raises TaipanSemanticError carrying the use Location; every other
variant recurses into its children, the Binary and Comparison arms left
first.  Exception propagation becomes Except. -/
def analyzeExpression (tables : List SymbolTable) : Expr → Except SemanticError Unit
  | .number _ => .ok ()
  | .identifier identifier =>
    if is_defined tables identifier then .ok ()
    else .error { location := identifier.location
                  message := undefinedMessage identifier.name }
  | .unary _ value => analyzeExpression tables value
  | .binary left _ right =>
    match analyzeExpression tables left with
    | .error e => .error e
    | .ok _ => analyzeExpression tables right
  | .comparison left _ right =>
    match analyzeExpression tables left with
    | .error e => .error e
    | .ok _ => analyzeExpression tables right
  | .parenthese value => analyzeExpression tables value

mutual
/-- analyzer.py lines 48-74 (_analyze_statement): a Block pushes its table
(the stack head is the innermost scope) and pops it afterwards; If and While
analyze the condition then the body; Input and Assignment analyze their
identifier (and the Assignment right-hand side); Print of a String is
skipped; a Declaration is skipped entirely. -/
def analyzeStatement (tables : List SymbolTable) : Stmt → Except SemanticError Unit
  | .blockStmt block => analyzeBlockNode tables block
  | .ifStmt condition block =>
    match analyzeExpression tables condition with
    | .error e => .error e
    | .ok _ => analyzeBlockNode tables block
  | .whileStmt condition block =>
    match analyzeExpression tables condition with
    | .error e => .error e
    | .ok _ => analyzeBlockNode tables block
  | .input identifier => analyzeExpression tables (.identifier identifier)
  | .print value =>
    match value with
    | .string _ => .ok ()
    | .expression e => analyzeExpression tables e
  | .declaration _ _ => .ok ()
  | .assignment identifier expression =>
    match analyzeExpression tables (.identifier identifier) with
    | .error e => .error e
    | .ok _ => analyzeExpression tables expression

/-- The Block arm of analyzer.py lines 50-54: push the table of the block,
analyze the statements in order, pop. -/
def analyzeBlockNode (tables : List SymbolTable) : Block → Except SemanticError Unit
  | .mk statements symbolTable => analyzeStatementList (symbolTable :: tables) statements

/-- The statement loop of analyzer.py lines 52-53: the first raised error
aborts the traversal. -/
def analyzeStatementList (tables : List SymbolTable) : StmtList → Except SemanticError Unit
  | .nil => .ok ()
  | .cons head tail =>
    match analyzeStatement tables head with
    | .error e => .error e
    | .ok _ => analyzeStatementList tables tail
end

/-- analyzer.py lines 43-46 (Analyzer.analyze): a fresh analyzer has an empty
scope stack and analyzes the root block as a statement. -/
def Analyzer.analyze (ast : AST) : Except SemanticError Unit :=
  analyzeStatement [] (.blockStmt ast.root.block)

/-! ## Spec-side visibility

The following definitions follow the words of the spec, to be compared with
the analyzer: a name is visible at a use site when some table on the scope
stack (same or enclosing block) holds it with a declaration line strictly
earlier than the use line. -/

/-- Follows the words of the spec (section 3, Invariants): some table on the
stack contains the name with a declaration Location whose line is strictly
less than the line of the use. -/
def SpecVisible (tables : List SymbolTable) (identifier : Identifier) : Prop :=
  ∃ table ∈ tables, ∃ loc, table.lookup identifier.name = some loc ∧
    loc.start.line < identifier.location.start.line

/-- The boolean _is_defined of the code decides exactly the spec-side
visibility predicate. -/
theorem is_defined_iff (tables : List SymbolTable) (identifier : Identifier) :
    is_defined tables identifier = true ↔ SpecVisible tables identifier := by
  unfold is_defined SpecVisible
  rw [List.any_eq_true]
  constructor
  · rintro ⟨table, htable, hpred⟩
    refine ⟨table, htable, ?_⟩
    cases hlook : table.lookup identifier.name with
    | none => rw [hlook] at hpred; exact absurd hpred (by simp)
    | some symbol =>
      rw [hlook] at hpred
      exact ⟨symbol, rfl, by simpa using hpred⟩
  · rintro ⟨table, htable, loc, hlook, hlt⟩
    exact ⟨table, htable, by rw [hlook]; simpa using hlt⟩

/-- The identifier uses inside one expression, in traversal order. -/
def expressionUses : Expr → List Identifier
  | .number _ => []
  | .identifier identifier => [identifier]
  | .unary _ value => expressionUses value
  | .binary left _ right => expressionUses left ++ expressionUses right
  | .comparison left _ right => expressionUses left ++ expressionUses right
  | .parenthese value => expressionUses value

mutual
/-- Follows the words of the spec: the identifier uses of a statement, each
paired with the scope stack in force at the use site.  With includeDecl set,
uses inside Declaration initializers are collected as well (every identifier
use in the program); without it, only the positions the analyzer visits
(conditions, input targets, print expression values, assignment targets and
right-hand sides) are collected. -/
def stmtUses (includeDecl : Bool) (tables : List SymbolTable) :
    Stmt → List (List SymbolTable × Identifier)
  | .blockStmt block => blockUses includeDecl tables block
  | .ifStmt condition block =>
    (expressionUses condition).map (fun i => (tables, i)) ++
      blockUses includeDecl tables block
  | .whileStmt condition block =>
    (expressionUses condition).map (fun i => (tables, i)) ++
      blockUses includeDecl tables block
  | .input identifier => [(tables, identifier)]
  | .print value =>
    match value with
    | .string _ => []
    | .expression e => (expressionUses e).map (fun i => (tables, i))
  | .declaration _ expression =>
    if includeDecl then
      match expression with
      | some e => (expressionUses e).map (fun i => (tables, i))
      | none => []
    else []
  | .assignment identifier expression =>
    (tables, identifier) :: (expressionUses expression).map (fun i => (tables, i))

/-- The uses of a block: its table is pushed onto the stack for its body. -/
def blockUses (includeDecl : Bool) (tables : List SymbolTable) :
    Block → List (List SymbolTable × Identifier)
  | .mk statements symbolTable =>
    stmtListUses includeDecl (symbolTable :: tables) statements

/-- The uses of a statement sequence, in order. -/
def stmtListUses (includeDecl : Bool) (tables : List SymbolTable) :
    StmtList → List (List SymbolTable × Identifier)
  | .nil => []
  | .cons head tail =>
    stmtUses includeDecl tables head ++ stmtListUses includeDecl tables tail
end

/-- The identifier uses that the analyzer actually checks, over a whole
program. -/
def analyzedUses (ast : AST) : List (List SymbolTable × Identifier) :=
  stmtUses false [] (.blockStmt ast.root.block)

/-- Every identifier use of the program, declaration initializers included. -/
def allUses (ast : AST) : List (List SymbolTable × Identifier) :=
  stmtUses true [] (.blockStmt ast.root.block)

/-- Expression analysis succeeds exactly when every identifier use inside the
expression is visible on the current stack. -/
theorem analyzeExpression_ok_iff (tables : List SymbolTable) (e : Expr) :
    analyzeExpression tables e = .ok () ↔
      ∀ i ∈ expressionUses e, SpecVisible tables i := by
  induction e with
  | number v => simp [analyzeExpression, expressionUses]
  | identifier i =>
    simp only [expressionUses, List.mem_singleton, forall_eq]
    by_cases h : is_defined tables i
    · simp [analyzeExpression, h, (is_defined_iff tables i).mp h]
    · have hnot : ¬ SpecVisible tables i := fun hv =>
        h ((is_defined_iff tables i).mpr hv)
      simp [analyzeExpression, h, hnot]
  | unary op v ih => simpa [analyzeExpression, expressionUses] using ih
  | binary left op right ihl ihr =>
    show (match analyzeExpression tables left with
          | Except.error e => Except.error e
          | Except.ok _ => analyzeExpression tables right) = Except.ok () ↔ _
    cases h : analyzeExpression tables left with
    | error e =>
      simp only [expressionUses, List.forall_mem_append]
      constructor
      · intro hcontra; exact absurd hcontra (by simp)
      · rintro ⟨hl, _⟩
        rw [ihl.mpr hl] at h
        exact absurd h (by simp)
    | ok u =>
      cases u
      simp only [expressionUses, List.forall_mem_append, ihr]
      exact ⟨fun hr => ⟨ihl.mp h, hr⟩, fun hb => hb.2⟩
  | comparison left op right ihl ihr =>
    show (match analyzeExpression tables left with
          | Except.error e => Except.error e
          | Except.ok _ => analyzeExpression tables right) = Except.ok () ↔ _
    cases h : analyzeExpression tables left with
    | error e =>
      simp only [expressionUses, List.forall_mem_append]
      constructor
      · intro hcontra; exact absurd hcontra (by simp)
      · rintro ⟨hl, _⟩
        rw [ihl.mpr hl] at h
        exact absurd h (by simp)
    | ok u =>
      cases u
      simp only [expressionUses, List.forall_mem_append, ihr]
      exact ⟨fun hr => ⟨ihl.mp h, hr⟩, fun hb => hb.2⟩
  | parenthese v ih => simpa [analyzeExpression, expressionUses] using ih

/-- Sequencing through the Except match used in the analyzer: the sequence
succeeds exactly when both parts do. -/
theorem seq_ok_iff (a b : Except SemanticError Unit) :
    (match a with
     | Except.error e => Except.error e
     | Except.ok _ => b) = Except.ok () ↔ a = .ok () ∧ b = .ok () := by
  cases a with
  | error e => simp
  | ok u => cases u; simp

/-- Quantifying over uses paired with a fixed stack is quantifying over the
identifiers. -/
theorem forall_mem_pairMap (tables : List SymbolTable) (uses : List Identifier)
    (P : List SymbolTable × Identifier → Prop) :
    (∀ p ∈ uses.map (fun i => (tables, i)), P p) ↔ ∀ i ∈ uses, P (tables, i) := by
  constructor
  · intro h i hi; exact h _ (List.mem_map_of_mem _ hi)
  · intro h p hp
    obtain ⟨i, hi, rfl⟩ := List.mem_map.mp hp
    exact h i hi

mutual
/-- Statement analysis succeeds exactly when every use the analyzer checks
inside the statement is visible on the stack in force at its site. -/
theorem analyzeStatement_ok_iff :
    ∀ (tables : List SymbolTable) (s : Stmt),
      analyzeStatement tables s = .ok () ↔
        ∀ p ∈ stmtUses false tables s, SpecVisible p.1 p.2
  | tables, .blockStmt block => by
    simpa only [analyzeStatement, stmtUses] using analyzeBlockNode_ok_iff tables block
  | tables, .ifStmt condition block => by
    rw [show analyzeStatement tables (.ifStmt condition block) =
          (match analyzeExpression tables condition with
           | Except.error e => Except.error e
           | Except.ok _ => analyzeBlockNode tables block) from rfl,
        seq_ok_iff, analyzeExpression_ok_iff, analyzeBlockNode_ok_iff tables block]
    simp only [stmtUses, List.forall_mem_append, forall_mem_pairMap]
  | tables, .whileStmt condition block => by
    rw [show analyzeStatement tables (.whileStmt condition block) =
          (match analyzeExpression tables condition with
           | Except.error e => Except.error e
           | Except.ok _ => analyzeBlockNode tables block) from rfl,
        seq_ok_iff, analyzeExpression_ok_iff, analyzeBlockNode_ok_iff tables block]
    simp only [stmtUses, List.forall_mem_append, forall_mem_pairMap]
  | tables, .input identifier => by
    rw [show analyzeStatement tables (.input identifier) =
          analyzeExpression tables (.identifier identifier) from rfl,
        analyzeExpression_ok_iff]
    simp [stmtUses, expressionUses]
  | tables, .print value => by
    cases value with
    | string s => simp [analyzeStatement, stmtUses]
    | expression e =>
      rw [show analyzeStatement tables (.print (.expression e)) =
            analyzeExpression tables e from rfl, analyzeExpression_ok_iff]
      simp only [stmtUses, forall_mem_pairMap]
  | tables, .declaration identifier expression => by
    simp [analyzeStatement, stmtUses]
  | tables, .assignment identifier expression => by
    rw [show analyzeStatement tables (.assignment identifier expression) =
          (match analyzeExpression tables (.identifier identifier) with
           | Except.error e => Except.error e
           | Except.ok _ => analyzeExpression tables expression) from rfl,
        seq_ok_iff, analyzeExpression_ok_iff, analyzeExpression_ok_iff]
    simp only [stmtUses, List.forall_mem_cons, forall_mem_pairMap,
      expressionUses, List.mem_singleton, forall_eq]

/-- Block analysis succeeds exactly when every checked use inside the block
is visible, the table of the block being pushed for its body. -/
theorem analyzeBlockNode_ok_iff :
    ∀ (tables : List SymbolTable) (b : Block),
      analyzeBlockNode tables b = .ok () ↔
        ∀ p ∈ blockUses false tables b, SpecVisible p.1 p.2
  | tables, .mk statements symbolTable => by
    simpa only [analyzeBlockNode, blockUses] using
      analyzeStatementList_ok_iff (symbolTable :: tables) statements

/-- Analysis of a statement sequence succeeds exactly when every checked use
inside it is visible. -/
theorem analyzeStatementList_ok_iff :
    ∀ (tables : List SymbolTable) (l : StmtList),
      analyzeStatementList tables l = .ok () ↔
        ∀ p ∈ stmtListUses false tables l, SpecVisible p.1 p.2
  | tables, .nil => by simp [analyzeStatementList, stmtListUses]
  | tables, .cons head tail => by
    rw [show analyzeStatementList tables (.cons head tail) =
          (match analyzeStatement tables head with
           | Except.error e => Except.error e
           | Except.ok _ => analyzeStatementList tables tail) from rfl,
        seq_ok_iff, analyzeStatement_ok_iff tables head,
        analyzeStatementList_ok_iff tables tail]
    simp only [stmtListUses, List.forall_mem_append]
end

/-! ## Concrete programs used by counterexamples and witnesses -/

/-- A Location on the given line. -/
def locLine (line : Nat) : Location := ⟨⟨line, 1⟩, ⟨line, 2⟩⟩

/-- A program whose only identifier use sits inside a Declaration
initializer and refers to an undeclared name b: let a = b. -/
def declInitProgram : AST :=
  ⟨⟨.mk (.cons (.declaration ⟨"a", locLine 2⟩
      (some (.identifier ⟨"b", locLine 2⟩))) .nil) ⟨[("a", locLine 2)]⟩⟩⟩

/-- A program with a self-referential initializer on one line: let a = a. -/
def selfRefProgram : AST :=
  ⟨⟨.mk (.cons (.declaration ⟨"a", locLine 2⟩
      (some (.identifier ⟨"a", locLine 2⟩))) .nil) ⟨[("a", locLine 2)]⟩⟩⟩

/-- A program declaring name inside a nested block and using it after the
block closes: { { let name } print name }. -/
def nestedDeclProgram (name : String) (declLoc useLoc : Location) : AST :=
  ⟨⟨.mk (.cons (.blockStmt (.mk (.cons (.declaration ⟨name, declLoc⟩ none) .nil)
        ⟨[(name, declLoc)]⟩))
      (.cons (.print (.expression (.identifier ⟨name, useLoc⟩))) .nil)) ⟨[]⟩⟩⟩

/-- A program declaring name in the outer block, then an empty block, then a
nested block using it: { let name {} { print name } }. -/
def outerDeclProgram (name : String) (declLoc useLoc : Location) : AST :=
  ⟨⟨.mk (.cons (.declaration ⟨name, declLoc⟩ none)
      (.cons (.blockStmt (.mk .nil ⟨[]⟩))
        (.cons (.blockStmt (.mk (.cons (.print (.expression
          (.identifier ⟨name, useLoc⟩))) .nil) ⟨[]⟩)) .nil))) ⟨[(name, declLoc)]⟩⟩⟩

/-! ## Claim theorems for the analyzer -/

/-- C1 counterexample: the claimed equivalence fails as stated.  In
declInitProgram the only identifier use of the program (the b inside the
initializer of let a = b) has no visible declaration at all, yet
Analyzer.analyze succeeds, because the analyzer skips Declaration
statements. -/
theorem C1_counterexample :
    Analyzer.analyze declInitProgram = .ok () ∧
      ¬ (∀ p ∈ allUses declInitProgram, SpecVisible p.1 p.2) := by
  refine ⟨rfl, fun h => ?_⟩
  have hmem : (([⟨[("a", locLine 2)]⟩] : List SymbolTable),
      ({ name := "b", location := locLine 2 } : Identifier)) ∈ allUses declInitProgram := by
    rw [show allUses declInitProgram =
      [([⟨[("a", locLine 2)]⟩], ⟨"b", locLine 2⟩)] from rfl]
    exact List.mem_singleton_self _
  obtain ⟨table, htable, loc, hlook, _⟩ := h _ hmem
  rw [List.mem_singleton] at htable
  subst htable
  rw [show SymbolTable.lookup ⟨[("a", locLine 2)]⟩ "b" = none from rfl] at hlook
  exact Option.noConfusion hlook

/-- C1 (amended): for every program AST, Analyzer.analyze succeeds if and
only if every identifier use that the analyzer checks — conditions, input
targets, print expression values, assignment targets and right-hand sides,
but not declaration initializers, which are skipped — has a visible
declaration in the same or an enclosing block whose declaration line is
strictly earlier than the line of the use. -/
theorem C1_analysis_ok_iff_visible (ast : AST) :
    Analyzer.analyze ast = .ok () ↔
      ∀ p ∈ analyzedUses ast, SpecVisible p.1 p.2 :=
  analyzeStatement_ok_iff [] (.blockStmt ast.root.block)

/-- C2 counterexample: a self-referential initializer (let a = a, declared
and used on one line) does not make analysis fail, although the use of a has
no visible strictly-earlier declaration on its stack: the Analyzer skips
Declaration statements, so Analyzer.analyze succeeds. -/
theorem C2_counterexample :
    Analyzer.analyze selfRefProgram = .ok () ∧
      ¬ SpecVisible [⟨[("a", locLine 2)]⟩] ⟨"a", locLine 2⟩ := by
  refine ⟨rfl, ?_⟩
  rintro ⟨table, htable, loc, hlook, hlt⟩
  rw [List.mem_singleton] at htable
  subst htable
  rw [show SymbolTable.lookup ⟨[("a", locLine 2)]⟩ "a" = some (locLine 2) from rfl] at hlook
  cases hlook
  exact lt_irrefl _ hlt

/-- C2 (amended): the Analyzer does not analyze Declaration statements at
all; the initializer expression, if present, is never traversed, so no
identifier inside it — visible or not — can make analysis of the declaration
fail. -/
theorem C2_declaration_skipped (tables : List SymbolTable)
    (identifier : Identifier) (expression : Option Expr) :
    analyzeStatement tables (.declaration identifier expression) = .ok () := rfl

/-- C3: whenever no symbol table on the scope stack contains the name of the
use with a declaration line strictly earlier than the line of the use,
analyzing the identifier fails with a SemanticError whose message is
Identifier <q>name<q> is not defined (q the single quote) and which carries
the Location of the use site. -/
theorem C3_undefined_identifier_error (tables : List SymbolTable)
    (identifier : Identifier) (h : ¬ SpecVisible tables identifier) :
    analyzeExpression tables (.identifier identifier) =
      .error { location := identifier.location
               message := undefinedMessage identifier.name } := by
  have hfalse : is_defined tables identifier = false := by
    rw [← Bool.not_eq_true]
    exact fun ht => h ((is_defined_iff tables identifier).mp ht)
  simp [analyzeExpression, hfalse]

/-- Witness for C3 at a concrete input: using x at line 3 over an empty
scope stack yields exactly the specified error. -/
theorem C3_witness :
    analyzeExpression [] (.identifier ⟨"x", locLine 3⟩) =
      .error { location := locLine 3, message := undefinedMessage "x" } :=
  C3_undefined_identifier_error [] ⟨"x", locLine 3⟩ (by rintro ⟨t, ht, _⟩; simp at ht)

/-- C4: block scoping is properly nested.  A name declared only inside a
nested block is rejected with the SemanticError of the later use site when
used after that block closes, whatever the lines involved; a name declared
on an earlier line in the outer block is accepted inside a nested block
opened afterward, after an intervening empty block at the same nesting
level. -/
theorem C4_block_scoping (name : String) (declLoc useLoc : Location) :
    Analyzer.analyze (nestedDeclProgram name declLoc useLoc) =
      .error { location := useLoc, message := undefinedMessage name } ∧
    (declLoc.start.line < useLoc.start.line →
      Analyzer.analyze (outerDeclProgram name declLoc useLoc) = .ok ()) := by
  constructor
  · rfl
  · intro h
    rw [show Analyzer.analyze (outerDeclProgram name declLoc useLoc) =
          analyzeStatement [] (.blockStmt (outerDeclProgram name declLoc useLoc).root.block)
        from rfl, analyzeStatement_ok_iff]
    intro p hp
    rw [show stmtUses false [] (.blockStmt (outerDeclProgram name declLoc useLoc).root.block) =
          [([⟨[]⟩, ⟨[(name, declLoc)]⟩], ⟨name, useLoc⟩)] from rfl] at hp
    rw [List.mem_singleton] at hp
    subst hp
    exact ⟨⟨[(name, declLoc)]⟩, by simp, declLoc, by simp [SymbolTable.lookup, List.find?], h⟩

/-- Witness for C4 at a concrete input: name a declared at line 2, used at
line 4. -/
theorem C4_witness :
    Analyzer.analyze (nestedDeclProgram "a" (locLine 2) (locLine 4)) =
      .error { location := locLine 4, message := undefinedMessage "a" } ∧
    Analyzer.analyze (outerDeclProgram "a" (locLine 2) (locLine 4)) = .ok () :=
  ⟨(C4_block_scoping "a" (locLine 2) (locLine 4)).1,
   (C4_block_scoping "a" (locLine 2) (locLine 4)).2 (by decide)⟩

/-- C10: for every Print statement whose value is a String literal, the
analyzer does not traverse the string as an expression: analyzing the
statement succeeds whatever the content of the string and whatever the
scope stack. -/
theorem C10_print_string_ok (tables : List SymbolTable) (s : String) :
    analyzeStatement tables (.print (.string s)) = .ok () := rfl

/-! ## Emitter (src/taipan/emitter.py)

The mutable Emitter object becomes an explicit state record; the jinja2
templating engine is an external collaborator, modelled as an arbitrary
render function from a template resource name and its bindings to text;
Python assertion failures (assert False) and the IndexError of an empty
operand under the unary arm of to_string become the Option value none. -/

/-- emitter.py lines 26-30: a builtin statement form; name, template
resource, required libraries. -/
structure Function where
  name : String
  template : String
  libraries : List String
deriving DecidableEq

/-- emitter.py lines 33-36: the two builtin statement forms. -/
def FUNCTIONS : List Function :=
  [⟨"print", "print.j2", ["stdio.h"]⟩, ⟨"input", "input.j2", ["stdio.h"]⟩]

/-- emitter.py line 38: the registry, name to builtin; a missing name is the
Python KeyError, hence Option. -/
def FUNCTION_MAPPING (name : String) : Option Function :=
  FUNCTIONS.find? (fun func => func.name == name)

/-- The keyword bindings passed to template.render at emitter.py lines 93,
97-102: the print template takes the value text and the is_number flag, the
input template the target identifier name. -/
inductive TemplateArgs where
  | printArgs (value : String) («is_number» : Bool)
  | inputArgs (identifier : String)
deriving DecidableEq

/-- The state of an Emitter (emitter.py lines 56-58): the accumulated code
and the accumulating set of required libraries.  The Python set is modelled
as a duplicate-free list in insertion order; its iteration order is
unspecified in Python and no claim depends on it. -/
structure EmitterState where
  code : String
  libraries : List String
deriving DecidableEq

/-- Adding one library to the set: a no-op when already present. -/
def addLibrary (libraries : List String) (library : String) : List String :=
  if library ∈ libraries then libraries else libraries ++ [library]

/-- emitter.py lines 63-69 (emit_function): look the builtin up (KeyError
when absent), add its libraries to the set, append the rendered template
text to the code. -/
def emit_function (render : String → TemplateArgs → String) (st : EmitterState)
    (name : String) (args : TemplateArgs) : Option EmitterState :=
  match FUNCTION_MAPPING name with
  | none => none
  | some func =>
    some { code := st.code ++ render func.template args
           libraries := func.libraries.foldl addLibrary st.libraries }

/-- emitter.py lines 41-52 (to_string): the source-like flattening of a
print expression.  Number renders its value, Identifier its name, Binary the
concatenation left-operator-right; the Unary arm appends only the FIRST
character of the flattened operand text (operand[0], an IndexError — none —
on an empty text); every other node hits assert False, hence none. -/
def to_string : Expr → Option String
  | .number value => some value
  | .identifier identifier => some identifier.name
  | .binary left operator right =>
    match to_string left, to_string right with
    | some l, some r => some (l ++ operator.value ++ r)
    | _, _ => none
  | .unary operator value =>
    match to_string value with
    | none => none
    | some s => if s.isEmpty then none else some (operator.value ++ s.take 1)
  | .comparison _ _ _ => none
  | .parenthese _ => none

/-- The expression arms of emitter.py lines 117-135 (Emitter.emit): Binary
and Comparison append left text, operator spelling, right text; Unary
appends the operator spelling then the full operand; Identifier its name and
Number its value.  ParentheseExpression is not imported by emitter.py and no
match arm covers it, so it falls to assert False: none. -/
def emitExpression (st : EmitterState) : Expr → Option EmitterState
  | .binary left operator right =>
    match emitExpression st left with
    | none => none
    | some s1 => emitExpression { s1 with code := s1.code ++ operator.value } right
  | .unary operator value =>
    emitExpression { st with code := st.code ++ operator.value } value
  | .comparison left operator right =>
    match emitExpression st left with
    | none => none
    | some s1 => emitExpression { s1 with code := s1.code ++ operator.value } right
  | .identifier identifier => some { st with code := st.code ++ identifier.name }
  | .number value => some { st with code := st.code ++ value }
  | .parenthese _ => none

mutual
/-- The statement arms of emitter.py lines 71-116 (Emitter.emit).  If and
While wrap condition and body in the target syntax (literal braces are
written with escapes); Input and Print go through emit_function; Print of a
non-String value is first flattened with to_string (its assertion failure
propagates); Declaration writes double name=initializer; with 0.0 for an
absent initializer; Assignment writes name=expression;. -/
def emitStatement (render : String → TemplateArgs → String) (st : EmitterState) :
    Stmt → Option EmitterState
  | .blockStmt block => emitBlock render st block
  | .ifStmt condition block =>
    match emitExpression { st with code := st.code ++ "if(" } condition with
    | none => none
    | some s1 =>
      match emitBlock render { s1 with code := s1.code ++ ")\x7b" } block with
      | none => none
      | some s2 => some { s2 with code := s2.code ++ "\x7d" }
  | .whileStmt condition block =>
    match emitExpression { st with code := st.code ++ "while(" } condition with
    | none => none
    | some s1 =>
      match emitBlock render { s1 with code := s1.code ++ ")\x7b" } block with
      | none => none
      | some s2 => some { s2 with code := s2.code ++ "\x7d" }
  | .input identifier =>
    emit_function render st "input" (.inputArgs identifier.name)
  | .print value =>
    match value with
    | .string s => emit_function render st "print" (.printArgs s false)
    | .expression e =>
      match to_string e with
      | none => none
      | some t => emit_function render st "print" (.printArgs t true)
  | .declaration identifier expression =>
    match emitExpression { st with code := st.code ++ "double " } (.identifier identifier) with
    | none => none
    | some s1 =>
      match expression with
      | some e =>
        (match emitExpression { s1 with code := s1.code ++ "=" } e with
         | none => none
         | some s2 => some { s2 with code := s2.code ++ ";" })
      | none => some { s1 with code := s1.code ++ "=" ++ "0.0" ++ ";" }
  | .assignment identifier expression =>
    match emitExpression st (.identifier identifier) with
    | none => none
    | some s1 =>
      match emitExpression { s1 with code := s1.code ++ "=" } expression with
      | none => none
      | some s2 => some { s2 with code := s2.code ++ ";" }

/-- The Block arm of emitter.py lines 77-79: emit each statement in order. -/
def emitBlock (render : String → TemplateArgs → String) (st : EmitterState) :
    Block → Option EmitterState
  | .mk statements _ => emitStatementList render st statements

/-- The statement loop of the Block arm; a failed emission propagates. -/
def emitStatementList (render : String → TemplateArgs → String) (st : EmitterState) :
    StmtList → Option EmitterState
  | .nil => some st
  | .cons head tail =>
    match emitStatement render st head with
    | none => none
    | some s1 => emitStatementList render s1 tail
end

/-- emitter.py lines 137-138 (emit_main): wrap the accumulated code in the
entry-point function with a success return (then a newline). -/
def emit_main (st : EmitterState) : EmitterState :=
  { st with code := "int main()\x7b" ++ st.code ++ "return 0;\x7d\n" }

/-- emitter.py lines 140-142 (emit_header): prepend one include directive per
required library, each iteration putting its directive first. -/
def emit_header (st : EmitterState) : EmitterState :=
  { st with code :=
      st.libraries.foldl (fun code library => "#include<" ++ library ++ ">\n" ++ code) st.code }

/-- The Program arm of emitter.py lines 73-76 on a fresh Emitter: emit the
root block, wrap with emit_main, prefix with emit_header. -/
def emitProgram (render : String → TemplateArgs → String) (program : Program) :
    Option EmitterState :=
  match emitBlock render { code := "", libraries := [] } program.block with
  | none => none
  | some st => some (emit_header (emit_main st))

/-- The text the emitter produces for one expression, read off a run on an
empty buffer (expression emission touches no library). -/
def emittedText (e : Expr) : Option String :=
  (emitExpression { code := "", libraries := [] } e).map EmitterState.code

/-- The emitted expression text, computed compositionally; shown below to
agree with emittedText. -/
def exprText : Expr → Option String
  | .number value => some value
  | .identifier identifier => some identifier.name
  | .binary left operator right =>
    match exprText left, exprText right with
    | some tl, some tr => some (tl ++ operator.value ++ tr)
    | _, _ => none
  | .unary operator value => (exprText value).map (fun t => operator.value ++ t)
  | .comparison left operator right =>
    match exprText left, exprText right with
    | some tl, some tr => some (tl ++ operator.value ++ tr)
    | _, _ => none
  | .parenthese _ => none

/-- Emitting an expression from any state appends exactly its compositional
text to the code and leaves the libraries untouched. -/
theorem emitExpression_eq (e : Expr) : ∀ st : EmitterState,
    emitExpression st e = (exprText e).map
      (fun t => { code := st.code ++ t, libraries := st.libraries }) := by
  induction e with
  | number v => intro st; rfl
  | identifier i => intro st; rfl
  | parenthese v ih => intro st; rfl
  | unary op v ih =>
    intro st
    show emitExpression { st with code := st.code ++ op.value } v = _
    rw [ih]
    simp only [exprText]
    cases exprText v with
    | none => rfl
    | some t => simp [String.append_assoc]
  | binary l op r ihl ihr =>
    intro st
    show (match emitExpression st l with
          | none => none
          | some s1 => emitExpression { s1 with code := s1.code ++ op.value } r) = _
    rw [ihl]
    simp only [exprText]
    cases exprText l with
    | none => rfl
    | some tl =>
      simp only [Option.map_some']
      rw [ihr]
      cases exprText r with
      | none => rfl
      | some tr => simp [String.append_assoc]
  | comparison l op r ihl ihr =>
    intro st
    show (match emitExpression st l with
          | none => none
          | some s1 => emitExpression { s1 with code := s1.code ++ op.value } r) = _
    rw [ihl]
    simp only [exprText]
    cases exprText l with
    | none => rfl
    | some tl =>
      simp only [Option.map_some']
      rw [ihr]
      cases exprText r with
      | none => rfl
      | some tr => simp [String.append_assoc]

/-- The observed emitted text of an expression is its compositional text. -/
theorem emittedText_eq (e : Expr) : emittedText e = exprText e := by
  unfold emittedText
  rw [emitExpression_eq]
  cases exprText e with
  | none => rfl
  | some t => simp [String.empty_append]

/-- Adding a library keeps the set duplicate-free. -/
theorem addLibrary_nodup (libraries : List String) (library : String)
    (h : libraries.Nodup) : (addLibrary libraries library).Nodup := by
  unfold addLibrary
  split
  · exact h
  · next hmem =>
    rw [List.nodup_append]
    exact ⟨h, List.nodup_singleton _,
      fun a ha hb => hmem ((List.mem_singleton.mp hb) ▸ ha)⟩

/-- Folding library additions keeps the set duplicate-free. -/
theorem foldl_addLibrary_nodup (ls : List String) : ∀ libraries : List String,
    libraries.Nodup → (ls.foldl addLibrary libraries).Nodup := by
  induction ls with
  | nil => exact fun l h => h
  | cons a ls ih => exact fun l h => ih _ (addLibrary_nodup _ _ h)

/-- emit_function keeps the library set duplicate-free. -/
theorem emit_function_nodup (render : String → TemplateArgs → String)
    (st : EmitterState) (name : String) (args : TemplateArgs) (st' : EmitterState)
    (h : emit_function render st name args = some st')
    (hn : st.libraries.Nodup) : st'.libraries.Nodup := by
  unfold emit_function at h
  cases hm : FUNCTION_MAPPING name with
  | none => rw [hm] at h; exact Option.noConfusion h
  | some func =>
    rw [hm] at h
    injection h with h2
    rw [← h2]
    exact foldl_addLibrary_nodup _ _ hn

/-- Expression emission never touches the library set. -/
theorem emitExpression_libraries (e : Expr) (st st' : EmitterState)
    (h : emitExpression st e = some st') : st'.libraries = st.libraries := by
  rw [emitExpression_eq] at h
  cases ht : exprText e with
  | none => rw [ht] at h; exact Option.noConfusion h
  | some t =>
    rw [ht] at h
    simp only [Option.map_some'] at h
    injection h with h2
    rw [← h2]

mutual
/-- Statement emission keeps the library set duplicate-free. -/
theorem emitStatement_nodup :
    ∀ (render : String → TemplateArgs → String) (st : EmitterState) (s : Stmt)
      (st' : EmitterState), emitStatement render st s = some st' →
      st.libraries.Nodup → st'.libraries.Nodup
  | render, st, .blockStmt block, st' => fun h hn =>
    emitBlock_nodup render st block st' h hn
  | render, st, .ifStmt condition block, st' => by
    intro h hn
    have h : (match emitExpression { st with code := st.code ++ "if(" } condition with
              | none => none
              | some s1 =>
                match emitBlock render { s1 with code := s1.code ++ ")\x7b" } block with
                | none => none
                | some s2 => some { s2 with code := s2.code ++ "\x7d" }) = some st' := h
    cases h1 : emitExpression { st with code := st.code ++ "if(" } condition with
    | none => rw [h1] at h; exact Option.noConfusion h
    | some s1 =>
      rw [h1] at h
      have h : (match emitBlock render { s1 with code := s1.code ++ ")\x7b" } block with
                | none => none
                | some s2 => some { s2 with code := s2.code ++ "\x7d" }) = some st' := h
      cases h2 : emitBlock render { s1 with code := s1.code ++ ")\x7b" } block with
      | none => rw [h2] at h; exact Option.noConfusion h
      | some s2 =>
        rw [h2] at h
        injection h with h3
        rw [← h3]
        refine emitBlock_nodup render _ block s2 h2 ?_
        rw [show ({ s1 with code := s1.code ++ ")\x7b" } : EmitterState).libraries = s1.libraries
          from rfl, emitExpression_libraries condition _ s1 h1]
        exact hn
  | render, st, .whileStmt condition block, st' => by
    intro h hn
    have h : (match emitExpression { st with code := st.code ++ "while(" } condition with
              | none => none
              | some s1 =>
                match emitBlock render { s1 with code := s1.code ++ ")\x7b" } block with
                | none => none
                | some s2 => some { s2 with code := s2.code ++ "\x7d" }) = some st' := h
    cases h1 : emitExpression { st with code := st.code ++ "while(" } condition with
    | none => rw [h1] at h; exact Option.noConfusion h
    | some s1 =>
      rw [h1] at h
      have h : (match emitBlock render { s1 with code := s1.code ++ ")\x7b" } block with
                | none => none
                | some s2 => some { s2 with code := s2.code ++ "\x7d" }) = some st' := h
      cases h2 : emitBlock render { s1 with code := s1.code ++ ")\x7b" } block with
      | none => rw [h2] at h; exact Option.noConfusion h
      | some s2 =>
        rw [h2] at h
        injection h with h3
        rw [← h3]
        refine emitBlock_nodup render _ block s2 h2 ?_
        rw [show ({ s1 with code := s1.code ++ ")\x7b" } : EmitterState).libraries = s1.libraries
          from rfl, emitExpression_libraries condition _ s1 h1]
        exact hn
  | render, st, .input identifier, st' => fun h hn =>
    emit_function_nodup render st "input" (.inputArgs identifier.name) st' h hn
  | render, st, .print value, st' => by
    cases value with
    | string s =>
      intro h hn
      exact emit_function_nodup render st "print" (.printArgs s false) st' h hn
    | expression e =>
      intro h hn
      have h : (match to_string e with
                | none => none
                | some t => emit_function render st "print" (.printArgs t true)) = some st' := h
      cases ht : to_string e with
      | none => rw [ht] at h; exact Option.noConfusion h
      | some t =>
        rw [ht] at h
        exact emit_function_nodup render st "print" (.printArgs t true) st' h hn
  | render, st, .declaration identifier expression, st' => by
    cases expression with
    | none =>
      intro h hn
      have h : (match emitExpression { st with code := st.code ++ "double " }
                  (.identifier identifier) with
                | none => none
                | some s1 => some { s1 with code := s1.code ++ "=" ++ "0.0" ++ ";" }) = some st' := h
      cases h1 : emitExpression { st with code := st.code ++ "double " } (.identifier identifier) with
      | none => rw [h1] at h; exact Option.noConfusion h
      | some s1 =>
        rw [h1] at h
        injection h with h3
        rw [← h3]
        show s1.libraries.Nodup
        rw [emitExpression_libraries _ _ s1 h1]
        exact hn
    | some e =>
      intro h hn
      have h : (match emitExpression { st with code := st.code ++ "double " }
                  (.identifier identifier) with
                | none => none
                | some s1 =>
                  match emitExpression { s1 with code := s1.code ++ "=" } e with
                  | none => none
                  | some s2 => some { s2 with code := s2.code ++ ";" }) = some st' := h
      cases h1 : emitExpression { st with code := st.code ++ "double " } (.identifier identifier) with
      | none => rw [h1] at h; exact Option.noConfusion h
      | some s1 =>
        rw [h1] at h
        have h : (match emitExpression { s1 with code := s1.code ++ "=" } e with
                  | none => none
                  | some s2 => some { s2 with code := s2.code ++ ";" }) = some st' := h
        cases h2 : emitExpression { s1 with code := s1.code ++ "=" } e with
        | none => rw [h2] at h; exact Option.noConfusion h
        | some s2 =>
          rw [h2] at h
          injection h with h3
          rw [← h3]
          show s2.libraries.Nodup
          rw [emitExpression_libraries e _ s2 h2]
          show s1.libraries.Nodup
          rw [emitExpression_libraries _ _ s1 h1]
          exact hn
  | render, st, .assignment identifier expression, st' => by
    intro h hn
    have h : (match emitExpression st (.identifier identifier) with
              | none => none
              | some s1 =>
                match emitExpression { s1 with code := s1.code ++ "=" } expression with
                | none => none
                | some s2 => some { s2 with code := s2.code ++ ";" }) = some st' := h
    cases h1 : emitExpression st (.identifier identifier) with
    | none => rw [h1] at h; exact Option.noConfusion h
    | some s1 =>
      rw [h1] at h
      have h : (match emitExpression { s1 with code := s1.code ++ "=" } expression with
                | none => none
                | some s2 => some { s2 with code := s2.code ++ ";" }) = some st' := h
      cases h2 : emitExpression { s1 with code := s1.code ++ "=" } expression with
      | none => rw [h2] at h; exact Option.noConfusion h
      | some s2 =>
        rw [h2] at h
        injection h with h3
        rw [← h3]
        show s2.libraries.Nodup
        rw [emitExpression_libraries expression _ s2 h2]
        show s1.libraries.Nodup
        rw [emitExpression_libraries (.identifier identifier) st s1 h1]
        exact hn

/-- Block emission keeps the library set duplicate-free. -/
theorem emitBlock_nodup :
    ∀ (render : String → TemplateArgs → String) (st : EmitterState) (b : Block)
      (st' : EmitterState), emitBlock render st b = some st' →
      st.libraries.Nodup → st'.libraries.Nodup
  | render, st, .mk statements _symbolTable, st' => fun h hn =>
    emitStatementList_nodup render st statements st' h hn

/-- Statement-list emission keeps the library set duplicate-free. -/
theorem emitStatementList_nodup :
    ∀ (render : String → TemplateArgs → String) (st : EmitterState) (l : StmtList)
      (st' : EmitterState), emitStatementList render st l = some st' →
      st.libraries.Nodup → st'.libraries.Nodup
  | render, st, .nil, st' => by
    intro h hn
    injection h with h2
    rw [← h2]
    exact hn
  | render, st, .cons head tail, st' => by
    intro h hn
    have h : (match emitStatement render st head with
              | none => none
              | some s1 => emitStatementList render s1 tail) = some st' := h
    cases h1 : emitStatement render st head with
    | none => rw [h1] at h; exact Option.noConfusion h
    | some s1 =>
      rw [h1] at h
      exact emitStatementList_nodup render s1 tail st' h
        (emitStatement_nodup render st head s1 h1 hn)
end

/-! ## Shape of the final emitted text -/

/-- One include directive, as prepended by emit_header. -/
def includeDirective (library : String) : String := "#include<" ++ library ++ ">\n"

/-- The concatenation of the include directives of a list of libraries. -/
def includesText : List String → String
  | [] => ""
  | l :: ls => includeDirective l ++ includesText ls

/-- includesText distributes over append. -/
theorem includesText_append (xs ys : List String) :
    includesText (xs ++ ys) = includesText xs ++ includesText ys := by
  induction xs with
  | nil => simp [includesText, String.empty_append]
  | cons a xs ih => simp [includesText, ih, String.append_assoc]

/-- The prepending loop of emit_header yields the include directives of the
reversed library list, in front of the existing code. -/
theorem foldl_include (libs : List String) : ∀ code : String,
    libs.foldl (fun code library => "#include<" ++ library ++ ">\n" ++ code) code =
      includesText libs.reverse ++ code := by
  induction libs with
  | nil => intro code; simp [includesText, String.empty_append]
  | cons a libs ih =>
    intro code
    show libs.foldl _ ("#include<" ++ a ++ ">\n" ++ code) = _
    rw [ih, List.reverse_cons, includesText_append]
    simp [includesText, includeDirective, String.append_assoc, String.append_empty]

/-! ## Claim theorems for the emitter -/

/-- A constant stand-in for the external template renderer, used by concrete
witnesses. -/
def constRender : String → TemplateArgs → String := fun _ _ => "R"

/-- A program with two builtin statements, both requiring stdio.h. -/
def twoBuiltinsProgram : Program :=
  ⟨.mk (.cons (.print (.string "hi")) (.cons (.input ⟨"x", locLine 2⟩) .nil)) ⟨[]⟩⟩

/-- A program printing a parenthesized expression. -/
def parenthesePrintProgram : Program :=
  ⟨.mk (.cons (.print (.expression (.parenthese (.number "1")))) .nil) ⟨[]⟩⟩

/-- C5: for a Print statement whose value is a UnaryExpression, the flattened
text passed as the value binding of the print template is the operator
spelling followed by ONLY the first character of the flattened operand
text. -/
theorem C5_print_unary_first_char (render : String → TemplateArgs → String)
    (st : EmitterState) (op : Operator) (v : Expr) (s : String)
    (hs : to_string v = some s) (hne : s.isEmpty = false) :
    emitStatement render st (.print (.expression (.unary op v))) =
      emit_function render st "print" (.printArgs (op.value ++ s.take 1) true) := by
  have h : emitStatement render st (.print (.expression (.unary op v))) =
      (match to_string (.unary op v) with
       | none => none
       | some t => emit_function render st "print" (.printArgs t true)) := rfl
  rw [h, show to_string (.unary op v) = some (op.value ++ s.take 1) from by
    rw [show to_string (.unary op v) =
          (match to_string v with
           | none => none
           | some s0 => if s0.isEmpty then none else some (op.value ++ s0.take 1)) from rfl,
      hs]
    simp [hne]]

/-- Witness for C5 at a concrete input: printing the unary minus of the
number whose text is 12.0 binds the value -1 (the first character only of
12.0, after the minus). -/
theorem C5_witness :
    emitStatement constRender { code := "", libraries := [] }
        (.print (.expression (.unary ⟨"-"⟩ (.number "12.0")))) =
      emit_function constRender { code := "", libraries := [] } "print"
        (.printArgs ("-" ++ String.take "12.0" 1) true) :=
  C5_print_unary_first_char constRender { code := "", libraries := [] }
    ⟨"-"⟩ (.number "12.0") "12.0" rfl rfl

/-- C6: to_string covers only Number, Identifier, Binary and Unary nodes;
a Print of a ParentheseExpression, or of an expression containing a
Comparison where to_string visits it, makes emission fail the internal
assertion (none) instead of producing output, whatever the emitter state;
the same failure propagates through a whole program emission. -/
theorem C6_print_assertion_failure (render : String → TemplateArgs → String)
    (st : EmitterState) :
    emitStatement render st (.print (.expression (.parenthese (.number "1")))) = none ∧
    emitStatement render st (.print (.expression (.binary (.number "1") ⟨"+"⟩
      (.comparison (.number "2") ⟨"<"⟩ (.number "3"))))) = none ∧
    emitProgram render parenthesePrintProgram = none :=
  ⟨rfl, rfl, rfl⟩

/-- C7: the final emitted text is the include directives of the distinct
required libraries (the accumulated set, duplicate-free, in reversed
accumulation order) followed by the single entry-point function wrapping the
accumulated statement text and ending with the success return (and the
newline emit_main appends after it). -/
theorem C7_emitted_shape (render : String → TemplateArgs → String)
    (program : Program) (st : EmitterState)
    (h : emitBlock render { code := "", libraries := [] } program.block = some st) :
    st.libraries.Nodup ∧
    emitProgram render program =
      some { code := includesText st.libraries.reverse ++ "int main()\x7b" ++ st.code ++
               "return 0;\x7d\n",
             libraries := st.libraries } := by
  refine ⟨emitBlock_nodup render _ program.block st h List.nodup_nil, ?_⟩
  unfold emitProgram
  rw [h]
  show some (emit_header (emit_main st)) = _
  unfold emit_header emit_main
  rw [foldl_include]
  simp [String.append_assoc]

/-- Witness for C7 at a concrete input: a program with one Print of a string
and one Input emits one single include for stdio.h although both statements
require it, around the rendered body. -/
theorem C7_witness :
    (["stdio.h"] : List String).Nodup ∧
    emitProgram constRender twoBuiltinsProgram =
      some { code := includesText ["stdio.h"] ++ "int main()\x7b" ++ "RR" ++
               "return 0;\x7d\n",
             libraries := ["stdio.h"] } :=
  C7_emitted_shape constRender twoBuiltinsProgram
    { code := "RR", libraries := ["stdio.h"] } rfl

/-- C8: a Declaration emits double name=initializer text; where the
initializer text is the emitted text of the initializer expression, and
exactly 0.0 when the initializer is absent.  The library set is untouched. -/
theorem C8_declaration_emission (render : String → TemplateArgs → String)
    (st : EmitterState) (identifier : Identifier) :
    emitStatement render st (.declaration identifier none) =
      some { st with
             code := st.code ++ "double " ++ identifier.name ++ "=" ++ "0.0" ++ ";" } ∧
    ∀ (e : Expr) (t : String), emittedText e = some t →
      emitStatement render st (.declaration identifier (some e)) =
        some { st with
               code := st.code ++ "double " ++ identifier.name ++ "=" ++ t ++ ";" } := by
  constructor
  · rfl
  · intro e t ht
    rw [emittedText_eq] at ht
    have h1 : emitStatement render st (.declaration identifier (some e)) =
        (match emitExpression
            { st with code := st.code ++ "double " ++ identifier.name ++ "=" } e with
         | none => none
         | some s2 => some { s2 with code := s2.code ++ ";" }) := rfl
    rw [h1, emitExpression_eq, ht]
    rfl

/-- Witness for C8 at a concrete input: declarations of x without and with
the initializer 1.5. -/
theorem C8_witness :
    emitStatement constRender { code := "", libraries := [] }
        (.declaration ⟨"x", locLine 2⟩ none) =
      some { code := "" ++ "double " ++ "x" ++ "=" ++ "0.0" ++ ";", libraries := [] } ∧
    emitStatement constRender { code := "", libraries := [] }
        (.declaration ⟨"x", locLine 2⟩ (some (.number "1.5"))) =
      some { code := "" ++ "double " ++ "x" ++ "=" ++ "1.5" ++ ";", libraries := [] } :=
  ⟨(C8_declaration_emission constRender { code := "", libraries := [] } ⟨"x", locLine 2⟩).1,
   (C8_declaration_emission constRender { code := "", libraries := [] } ⟨"x", locLine 2⟩).2
     (.number "1.5") "1.5" rfl⟩

/-- C9: Binary and Comparison nodes emit left text, operator spelling, right
text, in that order with nothing added; a Unary node emits the operator
spelling followed by the FULL operand text (unlike the to_string flattening
of C5). -/
theorem C9_operator_emission :
    (∀ (l r : Expr) (op : Operator) (tl tr : String),
      emittedText l = some tl → emittedText r = some tr →
      emittedText (.binary l op r) = some (tl ++ op.value ++ tr)) ∧
    (∀ (l r : Expr) (op : Operator) (tl tr : String),
      emittedText l = some tl → emittedText r = some tr →
      emittedText (.comparison l op r) = some (tl ++ op.value ++ tr)) ∧
    (∀ (v : Expr) (op : Operator) (t : String),
      emittedText v = some t → emittedText (.unary op v) = some (op.value ++ t)) := by
  refine ⟨?_, ?_, ?_⟩
  · intro l r op tl tr hl hr
    rw [emittedText_eq] at hl hr ⊢
    rw [show exprText (.binary l op r) =
          (match exprText l, exprText r with
           | some a, some b => some (a ++ op.value ++ b)
           | _, _ => none) from rfl, hl, hr]
  · intro l r op tl tr hl hr
    rw [emittedText_eq] at hl hr ⊢
    rw [show exprText (.comparison l op r) =
          (match exprText l, exprText r with
           | some a, some b => some (a ++ op.value ++ b)
           | _, _ => none) from rfl, hl, hr]
  · intro v op t hv
    rw [emittedText_eq] at hv ⊢
    rw [show exprText (.unary op v) =
          (exprText v).map (fun t0 => op.value ++ t0) from rfl, hv]
    rfl

/-- Witness for C9 at concrete inputs: 1+2, 1<2 and the unary minus of the
identifier ab, whose full text survives (contrast with the to_string
flattening of C5). -/
theorem C9_witness :
    emittedText (.binary (.number "1") ⟨"+"⟩ (.number "2")) = some ("1" ++ "+" ++ "2") ∧
    emittedText (.comparison (.number "1") ⟨"<"⟩ (.number "2")) = some ("1" ++ "<" ++ "2") ∧
    emittedText (.unary ⟨"-"⟩ (.identifier ⟨"ab", locLine 2⟩)) = some ("-" ++ "ab") :=
  ⟨C9_operator_emission.1 _ _ _ _ _ rfl rfl,
   C9_operator_emission.2.1 _ _ _ _ _ rfl rfl,
   C9_operator_emission.2.2 _ _ _ rfl⟩

end Taipan
